import Mathlib

/-
Verification of the healthcare-IoT DVFS power/performance analysis core.

Shallow embedding of:
  src/Phase3_Performance_Analysis/analyze_results.py
    (generate_sample_dvfs_data, plot_energy_efficiency aggregation,
     np.argmin / np.argmax optimum selection)
  src/Phase2_Implementation/gem5_configs/healthcare_iot_config.py
    (DVFS point table, system topology wiring)

Real numbers of the Python source are modelled as exact rationals.
-/

attribute [local semireducible] Rat.add Rat.mul Rat.sub Rat.inv Rat.ofScientific

namespace HealthcareIoT

/-! ## Power model (analyze_results.py lines 77-80)

dynamic_power = (voltage ** 2) * frequency * base_ipc
static_power  = voltage * 5
avg_power     = dynamic_power + static_power
-/

def dynamic_power (voltage frequency ipc : ℚ) : ℚ :=
  voltage ^ 2 * frequency * ipc

def static_power (voltage : ℚ) : ℚ :=
  voltage * 5

def avg_power (voltage frequency ipc : ℚ) : ℚ :=
  dynamic_power voltage frequency ipc + static_power voltage

/-- Modelled from the spec, section 4.3: the parameterised dynamic-power
formula `C * voltage^2 * frequency * ipc` with capacitance/activity
constant `C` a configuration parameter.  The source has no such
parameter; this definition exists to compare the spec's parametric
family against the code's fixed computation. -/
def specDynamic (C voltage frequency ipc : ℚ) : ℚ :=
  C * voltage ^ 2 * frequency * ipc

/-- Modelled from the spec, section 4.3: the parameterised leakage
formula `k * voltage` with leakage coefficient `k` a configuration
parameter.  The source has no such parameter. -/
def specStatic (k voltage : ℚ) : ℚ :=
  k * voltage

/-- Modelled from the spec, section 4.3: the checked power model, which
fails (returns `none`) with NonPositiveInputError when `voltage ≤ 0` or
`frequency ≤ 0`, and otherwise yields (dynamic, static, total) with the
code's coefficients.  The source performs no such validation. -/
def specPowerChecked (voltage frequency ipc : ℚ) : Option (ℚ × ℚ × ℚ) :=
  if voltage ≤ 0 ∨ frequency ≤ 0 then none
  else
    some (dynamic_power voltage frequency ipc, static_power voltage,
      avg_power voltage frequency ipc)

instance (v f : ℚ) : Decidable (v ≤ 0 ∨ f ≤ 0) := instDecidableOr

/-! ## DVFS tables

analyze_results.py lines 53-56 (numeric pairs, frequencies in MHz) and
healthcare_iot_config.py lines 189-196 (the same operating points written
as unit strings, here translated to their numeric values in volts/MHz).
-/

def dvfs_points : List (ℚ × ℚ) :=
  [(0.6, 50), (0.7, 100), (0.8, 200), (0.9, 400), (1.0, 600), (1.2, 800)]

def dvfs_points_config : List (ℚ × ℚ) :=
  [(0.6, 50), (0.7, 100), (0.8, 200), (0.9, 400), (1.0, 600), (1.2, 800)]

def workloads : List String :=
  ["healthcare_monitor_test", "intensive_ecg_processing",
   "burst_transmission", "mixed_workload",
   "idle_scenario", "stress_test"]

/-! ## Per-record derivation (analyze_results.py lines 64-92) -/

/-- base_ipc = 0.65 + (frequency / 800) * 0.20, then workload-specific
multiplicative adjustments (lines 67-75). -/
def base_ipc (frequency : ℚ) (workload : String) : ℚ :=
  let b : ℚ := 0.65 + frequency / 800 * 0.20
  if workload = ("intensive_ecg_processing") then b * 0.95
  else if workload = ("idle_scenario") then b * 0.30
  else if workload = ("stress_test") then b * 1.05
  else b

/-- Instruction-count selection (lines 83-88). -/
def sim_insts (workload : String) : ℕ :=
  if workload = ("stress_test") then 500000
  else if workload = ("idle_scenario") then 50000
  else 200000

/-- sim_seconds = sim_insts / (frequency * 1e6 * base_ipc) (line 90). -/
def sim_seconds (frequency : ℚ) (workload : String) : ℚ :=
  (sim_insts workload : ℚ) / (frequency * 1000000 * base_ipc frequency workload)

/-- total_energy = avg_power * sim_seconds * 1000 (line 91, µJ scaling). -/
def total_energy (voltage frequency : ℚ) (workload : String) : ℚ :=
  avg_power voltage frequency (base_ipc frequency workload)
    * sim_seconds frequency workload * 1000

/-- energy_per_inst = total_energy / sim_insts (line 92). -/
def energy_per_inst (voltage frequency : ℚ) (workload : String) : ℚ :=
  total_energy voltage frequency workload / (sim_insts workload : ℚ)

/-! ## Python round, modelled as round-half-to-even on exact rationals -/

def qfloor (q : ℚ) : ℤ := Int.fdiv q.num q.den

def roundHalfEven (q : ℚ) : ℤ :=
  let f := qfloor q
  let r := q - (f : ℚ)
  if r < 1 / 2 then f
  else if 1 / 2 < r then f + 1
  else if f % 2 = 0 then f else f + 1

def pyRound (q : ℚ) (n : ℕ) : ℚ :=
  ((roundHalfEven (q * (10 : ℚ) ^ n) : ℤ) : ℚ) / (10 : ℚ) ^ n

/-! ## MetricsRecord and the sample-data generator (lines 49-116)

The source draws the two cache-hit-rate fields from numpy's global
random number generator (lines 95-96); the ambient random stream is
modelled as an explicit function `rng : ℕ → ℚ`, record `i` consuming
draws `2*i` and `2*i+1`.
-/

structure MetricsRecord where
  voltage : ℚ
  frequency : ℚ
  workload : String
  ipc : ℚ
  cpi : ℚ
  avg_power : ℚ
  peak_power : ℚ
  total_energy : ℚ
  energy_per_inst : ℚ
  sim_insts : ℕ
  sim_seconds : ℚ
  icache_hit_rate : ℚ
  dcache_hit_rate : ℚ
deriving DecidableEq

def mkRecord (rng : ℕ → ℚ) (i : ℕ) (pw : (ℚ × ℚ) × String) : MetricsRecord :=
  let voltage := pw.1.1
  let frequency := pw.1.2
  let workload := pw.2
  let ipc := base_ipc frequency workload
  let power := avg_power voltage frequency ipc
  let insts := sim_insts workload
  let seconds := sim_seconds frequency workload
  let energy := total_energy voltage frequency workload
  let epi := energy_per_inst voltage frequency workload
  { voltage := voltage
    frequency := frequency
    workload := workload
    ipc := pyRound ipc 3
    cpi := pyRound (1 / ipc) 3
    avg_power := pyRound power 1
    peak_power := pyRound (power * 1.3) 1
    total_energy := pyRound energy 2
    energy_per_inst := pyRound epi 4
    sim_insts := insts
    sim_seconds := pyRound seconds 6
    icache_hit_rate := pyRound (0.945 + rng (2 * i)) 4
    dcache_hit_rate := pyRound (0.955 + rng (2 * i + 1)) 4 }

def pointWorkloadPairs : List ((ℚ × ℚ) × String) :=
  dvfs_points.flatMap (fun p => workloads.map (fun w => (p, w)))

def generate_sample_dvfs_data (rng : ℕ → ℚ) : List MetricsRecord :=
  pointWorkloadPairs.enum.map (fun ip => mkRecord rng ip.1 ip.2)

/-- The (operating point, workload) key of a record. -/
def recKey3 (r : MetricsRecord) : ℚ × ℚ × String :=
  (r.voltage, r.frequency, r.workload)

/-- Positivity of a record's instruction count and elapsed seconds. -/
def posFields (r : MetricsRecord) : Bool :=
  decide (0 < r.sim_insts) && decide (0 < r.sim_seconds)

/-- The operating-point key of a record. -/
def recKey (r : MetricsRecord) : ℚ × ℚ :=
  (r.voltage, r.frequency)

/-- All record fields except the two randomly perturbed cache-hit-rate
fields. -/
def stripCache (r : MetricsRecord) :
    ℚ × ℚ × String × ℚ × ℚ × ℚ × ℚ × ℚ × ℚ × ℕ × ℚ :=
  (r.voltage, r.frequency, r.workload, r.ipc, r.cpi, r.avg_power,
   r.peak_power, r.total_energy, r.energy_per_inst, r.sim_insts,
   r.sim_seconds)

/-! ## Per-point aggregation (plot_energy_efficiency, lines 158-177)

The source takes the sorted list of distinct (voltage, frequency) pairs
present in the results, and for each point averages energy_per_inst
over the records at that point whose workload is not "idle_scenario";
a point whose active list is empty is skipped (`if active_results:`). -/

/-- Lexicographic order on operating points, Python's `sorted` order on
(voltage, frequency) tuples. -/
def lexLe (p q : ℚ × ℚ) : Prop :=
  p.1 < q.1 ∨ (p.1 = q.1 ∧ p.2 ≤ q.2)

instance : DecidableRel lexLe := fun p q => by
  unfold lexLe; infer_instance

/-- `sorted(list(set(...)))` over the (voltage, frequency) pairs of the
results (line 159). -/
def sortedPoints (results : List MetricsRecord) : List (ℚ × ℚ) :=
  List.insertionSort lexLe (results.map recKey).dedup

/-- Records at an operating point (lines 166-167). -/
def pointResults (results : List MetricsRecord) (p : ℚ × ℚ) :
    List MetricsRecord :=
  results.filter (fun r => r.voltage = p.1 ∧ r.frequency = p.2)

/-- Non-idle records at an operating point (lines 170-171). -/
def activeResults (results : List MetricsRecord) (p : ℚ × ℚ) :
    List MetricsRecord :=
  (pointResults results p).filter (fun r => ¬ r.workload = ("idle_scenario"))

/-- np.mean. -/
def mean (l : List ℚ) : ℚ := l.sum / (l.length : ℚ)

/-- The aggregated per-point table of mean energy_per_inst values
(lines 165-177): one entry per sorted distinct point whose non-idle
record list is nonempty; empty points are silently dropped. -/
def aggregateEpi (results : List MetricsRecord) : List ((ℚ × ℚ) × ℚ) :=
  (sortedPoints results).filterMap (fun p =>
    let active := activeResults results p
    if active.isEmpty then none
    else some (p, mean (active.map MetricsRecord.energy_per_inst)))

/-! ## Optimum selection

np.argmin over the aggregated energy-per-instruction column (line 197)
and np.argmax over the per-point efficiency column (line 410); numpy
returns the FIRST index attaining the optimum. -/

/-- First-minimum scan over a (point, value) table: the entry kept is
the first one attaining the minimal value, as np.argmin does (a later
entry replaces the current one only when strictly smaller). -/
def argminFirst : List ((ℚ × ℚ) × ℚ) → Option ((ℚ × ℚ) × ℚ)
  | [] => none
  | e :: rest =>
    some ((argminFirst rest).elim e (fun m => if m.2 < e.2 then m else e))

/-- First-maximum scan over a (point, value) table, as np.argmax. -/
def argmaxFirst : List ((ℚ × ℚ) × ℚ) → Option ((ℚ × ℚ) × ℚ)
  | [] => none
  | e :: rest =>
    some ((argmaxFirst rest).elim e (fun m => if e.2 < m.2 then m else e))

/-! ## System topology (healthcare_iot_config.py lines 33-52)

Port-binding assignments in HealthcareIoTSystem's constructor, each edge
oriented from the request (mem-side) port to the response (cpu-side)
port it is bound to.  gem5 port sides: `mem_side`, `mem_side_ports` and
the System's `system_port` are request ports; `cpu_side`,
`cpu_side_ports` and MemCtrl's `port` are response ports.  Note lines
33-34 only attach the caches as attributes of the cpu: no port of the
cpu is ever bound, so the cpu has no edge. -/

inductive Comp
  | cpu
  | icache
  | dcache
  | l2cache
  | membus
  | memctrl
  | system
deriving DecidableEq

inductive Side
  | cpuSide
  | memSide
deriving DecidableEq

def allComps : List Comp :=
  [Comp.cpu, Comp.icache, Comp.dcache, Comp.l2cache, Comp.membus,
   Comp.memctrl, Comp.system]

/-- Each wiring edge of the constructor: (source component, side of its
bound port, destination component, side of the destination port).
Line 38: icache.mem_side = l2cache.cpu_side;
line 39: dcache.mem_side = l2cache.cpu_side;
line 45: l2cache.mem_side = membus.cpu_side_ports;
line 49: mem_ctrl.port = membus.mem_side_ports;
line 52: system_port = membus.cpu_side_ports. -/
def topology_edges : List (Comp × Side × Comp × Side) :=
  [(Comp.icache, Side.memSide, Comp.l2cache, Side.cpuSide),
   (Comp.dcache, Side.memSide, Comp.l2cache, Side.cpuSide),
   (Comp.l2cache, Side.memSide, Comp.membus, Side.cpuSide),
   (Comp.membus, Side.memSide, Comp.memctrl, Side.cpuSide),
   (Comp.system, Side.memSide, Comp.membus, Side.cpuSide)]

def succs (c : Comp) : List Comp :=
  (topology_edges.filter (fun e => e.1 = c)).map (fun e => e.2.2.1)

def reachesIn : ℕ → Comp → Comp → Bool
  | 0, a, b => a = b
  | n + 1, a, b => a = b || (succs a).any (fun c => reachesIn n c b)

/-- Reachability along the mem-side→cpu-side orientation (7 components,
so 7 steps suffice). -/
def reaches (a b : Comp) : Bool := reachesIn 7 a b

/-- The orientation graph has a cycle iff some component can come back
to itself through at least one edge. -/
def hasCycle : Bool :=
  allComps.any (fun c => (succs c).any (fun d => reaches d c))

/-- Strictly co-monotonic table: pairwise strictly increasing in both
voltage and frequency. -/
def strictlyCoMonotonic (l : List (ℚ × ℚ)) : Prop :=
  l.Pairwise (fun p q => p.1 < q.1 ∧ p.2 < q.2)

instance : DecidableRel (fun p q : ℚ × ℚ => p.1 < q.1 ∧ p.2 < q.2) :=
  fun _ _ => instDecidableAnd

instance (l : List (ℚ × ℚ)) : Decidable (strictlyCoMonotonic l) := by
  unfold strictlyCoMonotonic; infer_instance

/-- Every wiring edge runs from a mem-side (request) port to a cpu-side
(response) port. -/
def edgesOriented : Bool :=
  topology_edges.all (fun e => e.2.1 = Side.memSide && e.2.2.2 = Side.cpuSide)

/-! # Theorems -/

theorem sim_insts_pos (w : String) : 0 < sim_insts w := by
  unfold sim_insts
  split
  · norm_num
  · split
    · norm_num
    · norm_num

/-- Claim C6: both DVFS tables defined in the program (the numeric table
of analyze_results.py and the unit-string table of
healthcare_iot_config.py) are strictly increasing pairwise in both
voltage and frequency, with no duplicate (voltage, frequency) pair. -/
theorem dvfs_tables_strictly_monotonic :
    strictlyCoMonotonic dvfs_points ∧ strictlyCoMonotonic dvfs_points_config ∧
    dvfs_points.Nodup ∧ dvfs_points_config.Nodup := by
  refine ⟨?_, ?_, ?_, ?_⟩ <;> decide

/-- Claim C7, counterexample: the code performs no input validation, so
at the non-positive voltage -1 the power computation does not fail with
NonPositiveInputError but returns the numeric total 45, while the
spec-modelled checked power model returns none there. -/
theorem power_no_validation_cex :
    avg_power (-1) 50 1 = 45 ∧ specPowerChecked (-1) 50 1 = none := by
  constructor
  · norm_num [avg_power, dynamic_power, static_power]
  · rfl

/-- Claim C7, amended: the power computation accepts any voltage and
frequency without failing (it performs no validation), and ipc = 0
yields dynamic power exactly 0, so the total reduces to the static
term. -/
theorem power_accepts_any_input_idle_zero :
    ∀ v f : ℚ, dynamic_power v f 0 = 0 ∧ avg_power v f 0 = static_power v := by
  intro v f
  constructor
  · simp [dynamic_power]
  · simp [avg_power, dynamic_power]

/-- Claim C1, counterexample: the code's power computation coincides
with the spec's parametric family exactly at C = 1 and k = 5 and at no
other parameter pair, i.e. the capacitance constant and leakage
coefficient are hardcoded (to 1 and 5), not supplied at construction. -/
theorem power_constants_hardcoded_cex :
    dynamic_power = specDynamic 1 ∧ static_power = specStatic 5 ∧
    ¬ ∃ C k : ℚ, ¬ (C = 1 ∧ k = 5) ∧
      dynamic_power = specDynamic C ∧ static_power = specStatic k := by
  refine ⟨?_, ?_, ?_⟩
  · funext v f i
    simp [dynamic_power, specDynamic]
  · funext v
    simp [static_power, specStatic, mul_comm]
  · rintro ⟨C, k, hne, hd, hs⟩
    apply hne
    constructor
    · have h1 : dynamic_power 1 1 1 = specDynamic C 1 1 1 := by rw [hd]
      simp [dynamic_power, specDynamic] at h1
      linarith
    · have h2 : static_power 1 = specStatic k 1 := by rw [hs]
      simp [static_power, specStatic] at h2
      linarith

/-- Claim C1, amended: the power computation produces
dynamic = voltage^2 · frequency · ipc, static = 5 · voltage and
total = dynamic + static; the coefficients C = 1 and k = 5 are the
unique parameters of the spec's parametric family matching the code,
hardcoded in the generator rather than supplied at construction. -/
theorem power_formula_fixed_constants :
    (∀ v f ipc : ℚ,
      dynamic_power v f ipc = specDynamic 1 v f ipc ∧
      static_power v = specStatic 5 v ∧
      avg_power v f ipc = dynamic_power v f ipc + static_power v) ∧
    (∀ C k : ℚ,
      (∀ v f ipc : ℚ, dynamic_power v f ipc = specDynamic C v f ipc) →
      (∀ v : ℚ, static_power v = specStatic k v) →
      C = 1 ∧ k = 5) := by
  constructor
  · intro v f ipc
    refine ⟨?_, ?_, rfl⟩
    · simp [dynamic_power, specDynamic]
    · simp [static_power, specStatic, mul_comm]
  · intro C k hd hs
    constructor
    · have h1 := hd 1 1 1
      simp [dynamic_power, specDynamic] at h1
      linarith
    · have h2 := hs 1
      simp [static_power, specStatic] at h2
      linarith

/-- Claim C1, witness for the amended theorem at the concrete parameter
pair (1, 5). -/
theorem power_formula_fixed_constants_witness : (1 : ℚ) = 1 ∧ (5 : ℚ) = 5 :=
  power_formula_fixed_constants.2 1 5
    (fun v f i => by simp [dynamic_power, specDynamic])
    (fun v => by simp [static_power, specStatic, mul_comm])

/-- Claim C5, counterexample: at operating point (0.6 V, 50 MHz) with
the healthcare_monitor_test workload, total_energy is not
total_power × elapsed_seconds: the code multiplies by the additional
µJ scale factor 1000. -/
theorem energy_scale_factor_cex :
    total_energy 0.6 50 ("healthcare_monitor_test") ≠
      avg_power 0.6 50 (base_ipc 50 ("healthcare_monitor_test")) *
        sim_seconds 50 ("healthcare_monitor_test") ∧
    total_energy 0.6 50 ("healthcare_monitor_test") =
      1000 * (avg_power 0.6 50 (base_ipc 50 ("healthcare_monitor_test")) *
        sim_seconds 50 ("healthcare_monitor_test")) := by
  constructor
  · decide
  · decide

/-- Claim C5, amended: for every derived record,
total_energy = 1000 × total_power × elapsed_seconds (the µJ scaling),
energy_per_instruction × instructions = total_energy, and the
instruction count is always positive (one of 500000, 50000, 200000),
so the division defining energy_per_instruction never divides by
zero and no error path exists. -/
theorem energy_formula :
    ∀ (v f : ℚ) (w : String),
      total_energy v f w =
        1000 * (avg_power v f (base_ipc f w) * sim_seconds f w) ∧
      energy_per_inst v f w * (sim_insts w : ℚ) = total_energy v f w ∧
      0 < sim_insts w := by
  intro v f w
  refine ⟨?_, ?_, sim_insts_pos w⟩
  · unfold total_energy
    ring
  · unfold energy_per_inst
    have h : (sim_insts w : ℚ) ≠ 0 := by
      have := sim_insts_pos w
      positivity
    exact div_mul_cancel₀ _ h

/-- Claim C2: the total power voltage^2 · frequency · ipc + 5 · voltage
is monotone non-decreasing in voltage for fixed frequency and ipc, and
in frequency for fixed voltage and ipc, whenever voltage and frequency
are positive and ipc is non-negative. -/
theorem power_monotonic :
    (∀ v1 v2 f ipc : ℚ, 0 < v1 → 0 < v2 → 0 < f → 0 ≤ ipc → v1 ≤ v2 →
      avg_power v1 f ipc ≤ avg_power v2 f ipc) ∧
    (∀ v f1 f2 ipc : ℚ, 0 < v → 0 < f1 → 0 < f2 → 0 ≤ ipc → f1 ≤ f2 →
      avg_power v f1 ipc ≤ avg_power v f2 ipc) := by
  constructor
  · intro v1 v2 f ipc h1 h2 hf hipc h12
    unfold avg_power dynamic_power static_power
    have hsq : v1 ^ 2 ≤ v2 ^ 2 := pow_le_pow_left₀ h1.le h12 2
    have hfi : 0 ≤ f * ipc := mul_nonneg hf.le hipc
    nlinarith [mul_le_mul_of_nonneg_right hsq hfi]
  · intro v f1 f2 ipc hv h1 h2 hipc h12
    unfold avg_power dynamic_power static_power
    nlinarith [mul_le_mul_of_nonneg_left h12 (sq_nonneg v), hipc]

/-- Claim C2, witness at the concrete operating points (0.6 V, 50 MHz),
(0.7 V, 50 MHz) and (0.6 V, 100 MHz) with ipc 1. -/
theorem power_monotonic_witness :
    avg_power 0.6 50 1 ≤ avg_power 0.7 50 1 ∧
    avg_power 0.6 50 1 ≤ avg_power 0.6 100 1 :=
  ⟨power_monotonic.1 0.6 0.7 50 1 (by decide) (by decide) (by decide)
    (by decide) (by decide),
   power_monotonic.2 0.6 50 100 1 (by decide) (by decide) (by decide)
    (by decide) (by decide)⟩

theorem lexLe_refl (p : ℚ × ℚ) : lexLe p p := Or.inr ⟨rfl, le_refl _⟩

theorem argminFirst_eq_none {l : List ((ℚ × ℚ) × ℚ)} :
    argminFirst l = none ↔ l = [] := by
  cases l with
  | nil => simp [argminFirst]
  | cons e rest => simp [argminFirst]

theorem argmaxFirst_eq_none {l : List ((ℚ × ℚ) × ℚ)} :
    argmaxFirst l = none ↔ l = [] := by
  cases l with
  | nil => simp [argmaxFirst]
  | cons e rest => simp [argmaxFirst]

theorem argminFirst_min {l : List ((ℚ × ℚ) × ℚ)} {m : (ℚ × ℚ) × ℚ}
    (h : argminFirst l = some m) : m ∈ l ∧ ∀ e ∈ l, m.2 ≤ e.2 := by
  induction l generalizing m with
  | nil => simp [argminFirst] at h
  | cons e rest ih =>
    simp only [argminFirst] at h
    cases hr : argminFirst rest with
    | none =>
      simp only [hr, Option.elim] at h
      obtain rfl : e = m := Option.some.inj h
      obtain rfl : rest = [] := argminFirst_eq_none.mp hr
      simp
    | some m0 =>
      simp only [hr, Option.elim] at h
      obtain ⟨hmem, hmin⟩ := ih hr
      by_cases hlt : m0.2 < e.2
      · rw [if_pos hlt] at h
        obtain rfl : m0 = m := Option.some.inj h
        refine ⟨List.mem_cons_of_mem e hmem, ?_⟩
        intro x hx
        rcases List.mem_cons.mp hx with rfl | hxr
        · exact hlt.le
        · exact hmin x hxr
      · rw [if_neg hlt] at h
        obtain rfl : e = m := Option.some.inj h
        refine ⟨List.mem_cons_self e rest, ?_⟩
        intro x hx
        rcases List.mem_cons.mp hx with rfl | hxr
        · exact le_refl _
        · exact le_trans (not_lt.mp hlt) (hmin x hxr)

theorem argmaxFirst_max {l : List ((ℚ × ℚ) × ℚ)} {m : (ℚ × ℚ) × ℚ}
    (h : argmaxFirst l = some m) : m ∈ l ∧ ∀ e ∈ l, e.2 ≤ m.2 := by
  induction l generalizing m with
  | nil => simp [argmaxFirst] at h
  | cons e rest ih =>
    simp only [argmaxFirst] at h
    cases hr : argmaxFirst rest with
    | none =>
      simp only [hr, Option.elim] at h
      obtain rfl : e = m := Option.some.inj h
      obtain rfl : rest = [] := argmaxFirst_eq_none.mp hr
      simp
    | some m0 =>
      simp only [hr, Option.elim] at h
      obtain ⟨hmem, hmax⟩ := ih hr
      by_cases hlt : e.2 < m0.2
      · rw [if_pos hlt] at h
        obtain rfl : m0 = m := Option.some.inj h
        refine ⟨List.mem_cons_of_mem e hmem, ?_⟩
        intro x hx
        rcases List.mem_cons.mp hx with rfl | hxr
        · exact hlt.le
        · exact hmax x hxr
      · rw [if_neg hlt] at h
        obtain rfl : e = m := Option.some.inj h
        refine ⟨List.mem_cons_self e rest, ?_⟩
        intro x hx
        rcases List.mem_cons.mp hx with rfl | hxr
        · exact le_refl _
        · exact le_trans (hmax x hxr) (not_lt.mp hlt)

theorem argminFirst_first {l : List ((ℚ × ℚ) × ℚ)} {m : (ℚ × ℚ) × ℚ}
    (h : argminFirst l = some m) :
    ∃ l1 l2, l = l1 ++ m :: l2 ∧ ∀ e ∈ l1, m.2 < e.2 := by
  induction l generalizing m with
  | nil => simp [argminFirst] at h
  | cons e rest ih =>
    simp only [argminFirst] at h
    cases hr : argminFirst rest with
    | none =>
      simp only [hr, Option.elim] at h
      obtain rfl : e = m := Option.some.inj h
      exact ⟨[], rest, rfl, by simp⟩
    | some m0 =>
      simp only [hr, Option.elim] at h
      by_cases hlt : m0.2 < e.2
      · rw [if_pos hlt] at h
        obtain rfl : m0 = m := Option.some.inj h
        obtain ⟨l1, l2, heq, hgt⟩ := ih hr
        refine ⟨e :: l1, l2, by rw [heq]; rfl, ?_⟩
        intro x hx
        rcases List.mem_cons.mp hx with rfl | hxr
        · exact hlt
        · exact hgt x hxr
      · rw [if_neg hlt] at h
        obtain rfl : e = m := Option.some.inj h
        exact ⟨[], rest, rfl, by simp⟩

theorem argmaxFirst_first {l : List ((ℚ × ℚ) × ℚ)} {m : (ℚ × ℚ) × ℚ}
    (h : argmaxFirst l = some m) :
    ∃ l1 l2, l = l1 ++ m :: l2 ∧ ∀ e ∈ l1, e.2 < m.2 := by
  induction l generalizing m with
  | nil => simp [argmaxFirst] at h
  | cons e rest ih =>
    simp only [argmaxFirst] at h
    cases hr : argmaxFirst rest with
    | none =>
      simp only [hr, Option.elim] at h
      obtain rfl : e = m := Option.some.inj h
      exact ⟨[], rest, rfl, by simp⟩
    | some m0 =>
      simp only [hr, Option.elim] at h
      by_cases hlt : e.2 < m0.2
      · rw [if_pos hlt] at h
        obtain rfl : m0 = m := Option.some.inj h
        obtain ⟨l1, l2, heq, hgt⟩ := ih hr
        refine ⟨e :: l1, l2, by rw [heq]; rfl, ?_⟩
        intro x hx
        rcases List.mem_cons.mp hx with rfl | hxr
        · exact hlt
        · exact hgt x hxr
      · rw [if_neg hlt] at h
        obtain rfl : e = m := Option.some.inj h
        exact ⟨[], rest, rfl, by simp⟩

theorem pairwise_first_le {l1 l2 : List ((ℚ × ℚ) × ℚ)} {m : (ℚ × ℚ) × ℚ}
    (hp : ((l1 ++ m :: l2).map Prod.fst).Pairwise lexLe) :
    ∀ e ∈ l2, lexLe m.1 e.1 := by
  rw [List.map_append, List.pairwise_append] at hp
  have h2 := hp.2.1
  rw [List.map_cons, List.pairwise_cons] at h2
  intro e he
  exact h2.1 e.1 (List.mem_map_of_mem Prod.fst he)

/-- Claim C3: on an aggregated per-point table whose points appear in
lexicographically sorted order (as the code builds it from
sorted(list(set(...)))), the np.argmin scan returns an entry of minimal
energy-per-instruction and the np.argmax scan an entry of maximal
efficiency; in either case a tie is resolved to the lexicographically
earliest operating point, independent of any other iteration order. -/
theorem select_optimum_spec :
    ∀ table : List ((ℚ × ℚ) × ℚ),
      ((table.map Prod.fst).Pairwise lexLe →
        ∀ m, argminFirst table = some m →
          m ∈ table ∧ (∀ e ∈ table, m.2 ≤ e.2) ∧
            ∀ e ∈ table, e.2 = m.2 → lexLe m.1 e.1) ∧
      ((table.map Prod.fst).Pairwise lexLe →
        ∀ m, argmaxFirst table = some m →
          m ∈ table ∧ (∀ e ∈ table, e.2 ≤ m.2) ∧
            ∀ e ∈ table, e.2 = m.2 → lexLe m.1 e.1) := by
  intro table
  constructor
  · intro hp m hm
    obtain ⟨hmem, hmin⟩ := argminFirst_min hm
    refine ⟨hmem, hmin, ?_⟩
    obtain ⟨l1, l2, rfl, hgt⟩ := argminFirst_first hm
    intro e he heq
    rcases List.mem_append.mp he with h1 | h2
    · exact absurd heq (ne_of_gt (hgt e h1))
    · rcases List.mem_cons.mp h2 with rfl | h3
      · exact lexLe_refl _
      · exact pairwise_first_le hp e h3
  · intro hp m hm
    obtain ⟨hmem, hmax⟩ := argmaxFirst_max hm
    refine ⟨hmem, hmax, ?_⟩
    obtain ⟨l1, l2, rfl, hgt⟩ := argmaxFirst_first hm
    intro e he heq
    rcases List.mem_append.mp he with h1 | h2
    · exact absurd heq (ne_of_lt (hgt e h1))
    · rcases List.mem_cons.mp h2 with rfl | h3
      · exact lexLe_refl _
      · exact pairwise_first_le hp e h3

/-- A concrete sorted aggregated table with a tie in the value column,
used to witness the optimum-selection theorem. -/
def sampleTable : List ((ℚ × ℚ) × ℚ) :=
  [((0.6, 50), 3), ((0.7, 100), 3), ((0.8, 200), 5)]

/-- Claim C3, witness: the argmin scan of the sample table returns the
tied entry at the lexicographically earliest point (0.6, 50), and the
argmax scan returns the entry at (0.8, 200). -/
theorem select_optimum_spec_witness :
    ((0.6, 50), (3 : ℚ)) ∈ sampleTable ∧
    ((0.8, 200), (5 : ℚ)) ∈ sampleTable :=
  ⟨((select_optimum_spec sampleTable).1 (by decide) ((0.6, 50), 3)
      (by decide)).1,
   ((select_optimum_spec sampleTable).2 (by decide) ((0.8, 200), 5)
      (by decide)).1⟩

/-- Claim C8, code bug: in the wiring built by the HealthcareIoTSystem
constructor, every edge runs from a mem-side port to a cpu-side port
and the orientation graph is acyclic, and the caches and the memory bus
all reach the memory controller; but the constructor never binds any
port of the cpu (lines 33-34 only attach the caches as attributes), so
the cpu reaches nothing — contradicting the claim that every component
including the CPU reaches the MemoryController. -/
theorem topology_cpu_disconnected :
    edgesOriented = true ∧ hasCycle = false ∧
    reaches Comp.icache Comp.memctrl = true ∧
    reaches Comp.dcache Comp.memctrl = true ∧
    reaches Comp.l2cache Comp.memctrl = true ∧
    reaches Comp.membus Comp.memctrl = true ∧
    reaches Comp.cpu Comp.memctrl = false := by
  refine ⟨?_, ?_, ?_, ?_, ?_, ?_, ?_⟩ <;> decide

/-- Claim C9, counterexample: the sample-data generator reads numpy's
ambient random number stream (modelled as the explicit stream argument),
so two calls in identical input states but different ambient random
states return different record collections. -/
theorem generator_nondeterministic_cex :
    generate_sample_dvfs_data (fun _ => 0) ≠
      generate_sample_dvfs_data (fun _ => 1 / 100) := by
  intro h
  have h2 := congrArg (fun l => (l.map MetricsRecord.icache_hit_rate).head?) h
  exact absurd h2 (by decide)

theorem all_eq_map_all {α : Type} (l : List α) (p : α → Bool) :
    l.all p = (l.map p).all id := by
  induction l with
  | nil => rfl
  | cons a t ih => simp [List.all_cons, ih]

/-- Mapping any per-record function over the generated list factors
through the (operating point, workload) pair list, whenever the
function's value on a generated record does not depend on the random
stream or the record index. -/
theorem generate_map_eq {α : Type} (f : MetricsRecord → α)
    (g : (ℚ × ℚ) × String → α)
    (hfg : ∀ (rng : ℕ → ℚ) (i : ℕ) (pw : (ℚ × ℚ) × String),
      f (mkRecord rng i pw) = g pw)
    (rng : ℕ → ℚ) :
    (generate_sample_dvfs_data rng).map f = pointWorkloadPairs.map g := by
  unfold generate_sample_dvfs_data
  rw [List.map_map]
  have h1 : (f ∘ fun ip : ℕ × ((ℚ × ℚ) × String) => mkRecord rng ip.1 ip.2) =
      (g ∘ Prod.snd) := funext fun ip => hfg rng ip.1 ip.2
  rw [h1, ← List.map_map, List.enum_map_snd]

/-- Claim C9, amended: every record field other than the two randomly
perturbed cache-hit-rate fields is a deterministic function of the
generator's inputs: for any two ambient random streams the generated
collections agree on all other fields. -/
theorem generator_deterministic_modulo_rng :
    ∀ rng1 rng2 : ℕ → ℚ,
      (generate_sample_dvfs_data rng1).map stripCache =
        (generate_sample_dvfs_data rng2).map stripCache := by
  intro rng1 rng2
  rw [generate_map_eq stripCache
        (fun pw => stripCache (mkRecord (fun _ => 0) 0 pw))
        (fun r i pw => by simp only [stripCache, mkRecord]) rng1,
      generate_map_eq stripCache
        (fun pw => stripCache (mkRecord (fun _ => 0) 0 pw))
        (fun r i pw => by simp only [stripCache, mkRecord]) rng2]

/-- Claim C10: for every ambient random stream the generator returns
exactly 36 records — one per (operating point, workload) pair, 6 × 6 —
with no two records sharing a (voltage, frequency, workload) key, and
every record has positive instruction count and positive elapsed
seconds. -/
theorem generator_shape :
    ∀ rng : ℕ → ℚ,
      (generate_sample_dvfs_data rng).length = 36 ∧
      ((generate_sample_dvfs_data rng).map recKey3).Nodup ∧
      (generate_sample_dvfs_data rng).all posFields = true := by
  intro rng
  refine ⟨rfl, ?_, ?_⟩
  · rw [generate_map_eq recKey3 (fun pw => (pw.1.1, pw.1.2, pw.2))
        (fun _ _ _ => rfl) rng]
    decide
  · rw [all_eq_map_all,
        generate_map_eq posFields
          (fun pw => posFields (mkRecord (fun _ => 0) 0 pw))
          (fun r i pw => by simp only [posFields, mkRecord]) rng,
        ← all_eq_map_all]
    decide

/-- A record at operating point (0.6, 50) carrying the idle-labelled
workload, as the generator produces it. -/
def idleOnlyRecord : MetricsRecord :=
  mkRecord (fun _ => 0) 0 ((0.6, 50), ("idle_scenario"))

/-- A record at operating point (0.6, 50) carrying a non-idle workload,
as the generator produces it. -/
def sampleActiveRecord : MetricsRecord :=
  mkRecord (fun _ => 0) 0 ((0.6, 50), ("healthcare_monitor_test"))

def sampleResults : List MetricsRecord := [sampleActiveRecord, idleOnlyRecord]

/-- Claim C4, counterexample: on a record set whose only record at point
(0.6, 50) is idle-labelled, the aggregation does not fail with
NoDataError: it silently drops the point from the aggregated table
(the point is present among the distinct points but absent from the
output). -/
theorem aggregate_skips_empty_point_cex :
    sortedPoints [idleOnlyRecord] = [(0.6, 50)] ∧
    aggregateEpi [idleOnlyRecord] = [] := by
  constructor
  · decide
  · decide

/-- Claim C4, amended: every entry of the aggregated table is the
arithmetic mean of energy_per_instruction over exactly the ingested
records at that point whose workload is not idle-labelled, and that
record set is nonempty; a point whose record set is empty after the
idle exclusion is silently omitted from the table rather than raising
an error. -/
theorem aggregate_mean_nonidle :
    ∀ (results : List MetricsRecord) (p : ℚ × ℚ) (m : ℚ),
      ((p, m) ∈ aggregateEpi results →
        activeResults results p ≠ [] ∧
        m = mean ((activeResults results p).map MetricsRecord.energy_per_inst)) ∧
      (activeResults results p = [] → (p, m) ∉ aggregateEpi results) := by
  intro results p m
  constructor
  · intro hmem
    unfold aggregateEpi at hmem
    rcases List.mem_filterMap.mp hmem with ⟨a, _ha, hfa⟩
    cases hq : (activeResults results a).isEmpty with
    | true => simp [hq] at hfa
    | false =>
      simp only [hq] at hfa
      simp at hfa
      obtain ⟨rfl, hm⟩ := hfa
      refine ⟨?_, hm.symm⟩
      intro hnil
      rw [hnil] at hq
      simp at hq
  · intro hempty hmem
    unfold aggregateEpi at hmem
    rcases List.mem_filterMap.mp hmem with ⟨a, _ha, hfa⟩
    cases hq : (activeResults results a).isEmpty with
    | true => simp [hq] at hfa
    | false =>
      simp only [hq] at hfa
      simp at hfa
      obtain ⟨rfl, hm⟩ := hfa
      rw [hempty] at hq
      simp at hq

/-- The mean energy-per-instruction at point (0.6, 50) over the sample
results, i.e. over the single non-idle record there. -/
def sampleMean : ℚ :=
  mean ((activeResults sampleResults (0.6, 50)).map MetricsRecord.energy_per_inst)

/-- Claim C4, witness: on the concrete sample results the aggregated
entry at (0.6, 50) averages over the nonempty non-idle record list. -/
theorem aggregate_mean_nonidle_witness :
    activeResults sampleResults (0.6, 50) ≠ [] ∧
    sampleMean =
      mean ((activeResults sampleResults (0.6, 50)).map
        MetricsRecord.energy_per_inst) :=
  (aggregate_mean_nonidle sampleResults (0.6, 50) sampleMean).1 (by decide)

end HealthcareIoT
